import Mathlib

/-!
Verification of the timezone helper module (`helpers/timezones.ts`).

The module's only impure dependency is the platform internationalization
facility (zone-local calendar rendering, the device zone id, the optional
live zone enumeration) together with the bundled tz database.  Those
collaborators are modelled as explicit environment records (`TZEnv`,
`CatalogEnv`); every function of the module is translated over them.
A thrown `RangeError` for an unrecognized zone id is modelled by
`Except.error (UnknownZoneError.mk zone)`.
-/

namespace TZ

/-! ### Decimal digit rendering and parsing

`natDigits n` models the JavaScript decimal rendering of a non-negative
integer (as produced both by template literals and by `Intl` numeric
fields); `parseDigits` models `Number(...)` on a pure digit string.
The recursion is fuelled so that every definition reduces in the kernel.
-/

/-- The decimal digit character for `n % 10`. -/
def digitOfNat (n : Nat) : Char := Char.ofNat (48 + n % 10)

/-- Most-significant-first decimal digits of `n`, with `fuel` bounding the
recursion depth (`n < 10 ^ fuel` makes the fuel sufficient). -/
def natDigitsAux : Nat → Nat → List Char
  | 0, _ => []
  | fuel + 1, n =>
    if n < 10 then [digitOfNat n]
    else natDigitsAux fuel (n / 10) ++ [digitOfNat (n % 10)]

/-- Decimal digit list of `n`, most significant first; `0` renders as `"0"`. -/
def natDigits (n : Nat) : List Char := natDigitsAux (n + 1) n

/-- Decimal string of a non-negative integer, modelling JS number-to-string. -/
def natStr (n : Nat) : String := String.mk (natDigits n)

/-- Two-digit zero-padded rendering, modelling the `'2-digit'` Intl field style. -/
def pad2 (n : Nat) : List Char := if n < 10 then '0' :: natDigits n else natDigits n

/-- Decimal parse of a digit list continuing from accumulator `a`. -/
def parseDigitsFrom (a : Nat) (l : List Char) : Nat :=
  l.foldl (fun acc c => acc * 10 + (c.toNat - 48)) a

/-- Decimal parse of a digit list, modelling `Number(...)` on a digit string. -/
def parseDigits (l : List Char) : Nat := parseDigitsFrom 0 l

/-! ### Data model -/

/-- The `RangeError` thrown by the platform internationalization facility when
a time-zone identifier is not recognized; it carries the offending id. -/
structure UnknownZoneError where
  zone : String
deriving DecidableEq

/-- The zone-local calendar fields rendered for one instant in one zone
(the numeric values read back from `Intl.DateTimeFormat(...).formatToParts`). -/
structure LocalFields where
  year : Nat
  month : Nat
  day : Nat
  hour : Nat
  minute : Nat
  second : Nat
deriving DecidableEq

/-- The platform internationalization environment: zone-local calendar
rendering for each zone id and instant (epoch milliseconds), and the
device's current zone id.  `Except.error` models a thrown `RangeError`
for an unrecognized zone id. -/
structure TZEnv where
  localFields : String → Int → Except UnknownZoneError LocalFields
  deviceZoneId : String

/-- Result type of `dayRelative`. -/
inductive DayRel where
  | Today
  | Tomorrow
  | Yesterday
deriving DecidableEq

/-- `TimeZoneItem` from `utils/types.ts`. -/
structure TimeZoneItem where
  id : String
  city : String
  country : Option String
deriving DecidableEq

/-- The slice of a `@vvo/tzdb` `TimeZone` record that `getAllZones` reads. -/
structure TZMeta where
  name : String
  countryName : String
deriving DecidableEq

/-- Environment for `getAllZones`: the optional live enumeration
(`Intl.supportedValuesOf`; outer `none` = facility absent, `Except.error` =
facility throws), the bundled `timeZonesNames` list, the bundled
`getTimeZones()` metadata, and the locale-aware comparison used by
`String.prototype.localeCompare` (negative / zero / positive result). -/
structure CatalogEnv where
  supportedValuesOf : Option (Except Unit (List String))
  timeZonesNames : List String
  tzMeta : List TZMeta
  localeCompare : String → String → Int

/-! ### The translated module -/

/-- Splitting a character list at every occurrence of `sep`, modelling
`String.prototype.split` with a one-character separator (never returns an
empty list; empty segments are kept). -/
def splitChar (sep : Char) : List Char → List (List Char)
  | [] => [[]]
  | c :: cs =>
    match splitChar sep cs with
    | [] => [[]]
    | g :: gs => if c = sep then [] :: g :: gs else (c :: g) :: gs

/-- `cityFromZoneId` : split the IANA id by `'/'`, take the last part
(`pop() ?? id`), replace every underscore with a space. -/
def cityFromZoneId (id : String) : String :=
  String.mk (((splitChar '/' id.data).getLastD id.data).map
    (fun c => if c = '_' then ' ' else c))

/-- `deviceZone` : the current device zone id, read from the environment
(`Intl.DateTimeFormat().resolvedOptions().timeZone`). -/
def deviceZone (env : TZEnv) : String := env.deviceZoneId

/-- The `"YYYY-MM-DD"` string assembled by `dayKey` from the rendered parts
(`en-CA` with numeric year and 2-digit month/day). -/
def dayKeyStr (f : LocalFields) : String :=
  String.mk (natDigits f.year ++ '-' :: (pad2 f.month ++ '-' :: pad2 f.day))

/-- `dayKey` : build `"YYYY-MM-DD"` for a given zone and instant; an
unrecognized zone makes the rendering step throw. -/
def dayKey (env : TZEnv) (timeZone : String) (t : Int) :
    Except UnknownZoneError String :=
  match env.localFields timeZone t with
  | Except.error e => Except.error e
  | Except.ok f => Except.ok (dayKeyStr f)

/-- Days since 1970-01-01 of the proleptic Gregorian civil date `y-m-d`
(month `1..12`), the civil-from-days computation used by ECMAScript
`MakeDay`. -/
def daysFromCivil (y m d : Int) : Int :=
  let y2 := if m ≤ 2 then y - 1 else y
  let era := y2 / 400
  let yoe := y2 - era * 400
  let mp := if m ≤ 2 then m + 9 else m - 3
  let doy := (153 * mp + 2) / 5 + d - 1
  let doe := yoe * 365 + yoe / 4 - yoe / 100 + doy
  era * 146097 + doe - 719468

/-- `Date.UTC(y, monthIndex, d, hh, mm, ss)` in epoch milliseconds:
years `0..99` are interpreted as `1900..1999`, the month index is
normalized by floor division, and the result is the Gregorian day count
times `86400000` plus the time of day. -/
def dateUTC (y monthIndex d hh mm ss : Int) : Int :=
  let yr := if 0 ≤ y ∧ y ≤ 99 then 1900 + y else y
  let ym := yr + monthIndex / 12
  let mn := monthIndex % 12
  daysFromCivil ym (mn + 1) d * 86400000 +
    hh * 3600000 + mm * 60000 + ss * 1000

/-- `Math.round(num / den)` for an integer `num` and a positive integer
`den`: rounding half toward positive infinity, i.e. `⌊num/den + 1/2⌋ =
⌊(2*num + den) / (2*den)⌋` (for positive divisors `Int.ediv` is floor
division). -/
def mathRoundDiv (num den : Int) : Int := (2 * num + den) / (2 * den)

/-- The `Date.UTC(y, m - 1, d, hh, mm, ss)` reinterpretation step of
`offsetMinutes`: the zone-local field values read as if they denoted a
UTC instant. -/
def utcFromFields (f : LocalFields) : Int :=
  dateUTC (f.year : Int) ((f.month : Int) - 1) (f.day : Int)
    (f.hour : Int) (f.minute : Int) (f.second : Int)

/-- `offsetMinutes` : render the instant into zone-local fields, reinterpret
them as a UTC instant, return the difference from the actual instant in
minutes, rounded via `Math.round`. -/
def offsetMinutes (env : TZEnv) (timeZone : String) (t : Int) :
    Except UnknownZoneError Int :=
  match env.localFields timeZone t with
  | Except.error e => Except.error e
  | Except.ok f => Except.ok (mathRoundDiv (utcFromFields f - t) 60000)

/-- `diffLabel` : human label like `"+3h"`, `"−2h 30m"` relative to the
device zone. -/
def diffLabel (env : TZEnv) (targetZone : String) (t : Int) :
    Except UnknownZoneError String :=
  match offsetMinutes env targetZone t with
  | Except.error e => Except.error e
  | Except.ok ot =>
    match offsetMinutes env (deviceZone env) t with
    | Except.error e => Except.error e
    | Except.ok od =>
      let diff := ot - od
      let sign := if 0 ≤ diff then "+" else "−"
      let a := diff.natAbs
      let h := a / 60
      let m := a % 60
      if m ≠ 0 then Except.ok (sign ++ natStr h ++ "h " ++ natStr m ++ "m")
      else Except.ok (sign ++ natStr h ++ "h")

/-- The `toNum` helper of `dayRelative`: remove every hyphen from the
`"YYYY-MM-DD"` day key and parse the remaining digit string with
`Number(...)`. -/
def toNum (k : String) : Nat := parseDigits (k.data.filter (fun c => c != '-'))

/-- `dayRelative` : Today / Tomorrow / Yesterday of the target zone's
calendar date relative to the device's. -/
def dayRelative (env : TZEnv) (targetZone : String) (t : Int) :
    Except UnknownZoneError DayRel :=
  match dayKey env (deviceZone env) t with
  | Except.error e => Except.error e
  | Except.ok device =>
    match dayKey env targetZone t with
    | Except.error e => Except.error e
    | Except.ok target =>
      if target = device then Except.ok DayRel.Today
      else
        let delta : Int := (toNum target : Int) - (toNum device : Int)
        if delta = 1 then Except.ok DayRel.Tomorrow
        else if delta = -1 then Except.ok DayRel.Yesterday
        else if 0 < delta then Except.ok DayRel.Tomorrow
        else Except.ok DayRel.Yesterday

/-- `timeHHmm` : `"HH:mm"`, 24-hour, two-digit hour and minute of the
target zone's wall clock. -/
def timeHHmm (env : TZEnv) (targetZone : String) (t : Int) :
    Except UnknownZoneError String :=
  match env.localFields targetZone t with
  | Except.error e => Except.error e
  | Except.ok f => Except.ok (String.mk (pad2 f.hour ++ ':' :: pad2 f.minute))

/-- Lookup in the `new Map(tzMeta.map(z => [z.name, z]))` built by
`getAllZones`: for duplicate names the later entry wins. -/
def metaLookup (l : List TZMeta) (id : String) : Option TZMeta :=
  l.reverse.find? (fun z => z.name == id)

/-- One `TimeZoneItem` as built inside `getAllZones`. -/
def mkItem (meta : List TZMeta) (id : String) : TimeZoneItem :=
  { id := id
    city := cityFromZoneId id
    country := (metaLookup meta id).map TZMeta.countryName }

/-- `getAllZones` : prefer the live `Intl.supportedValuesOf('timeZone')`
list (absent facility or a throw falls back to the bundled
`timeZonesNames`), enrich each id with city and country, and sort
ascending by city with `localeCompare` (`Array.prototype.sort` is a
stable sort driven by the comparator's sign). -/
def getAllZones (env : CatalogEnv) : List TimeZoneItem :=
  let ids := match env.supportedValuesOf with
    | some (Except.ok l) => l
    | _ => env.timeZonesNames
  let items := ids.map (mkItem env.tzMeta)
  items.mergeSort (fun a b => decide (env.localeCompare a.city b.city ≤ 0))

deriving instance DecidableEq for Except

/-! ### Spec-side definitions -/

/-- Spec-side description of `cityFromZoneId`'s first step: the substring
after the last `'/'`, or the whole input when it contains no `'/'`. -/
def afterLastSlash : List Char → List Char
  | [] => []
  | c :: cs =>
    if '/' ∈ cs then afterLastSlash cs
    else if c = '/' then cs else c :: cs

/-- Spec-side underscore-to-space replacement. -/
def underscoreToSpace (c : Char) : Char := if c = '_' then ' ' else c

/-- The decimal-comparable integer key of a calendar date, as described by
the spec (`2024-06-15` becomes `20240615`). -/
def keyNum (f : LocalFields) : Nat := f.year * 10000 + f.month * 100 + f.day

/-- Spec-side day classification of target key `kt` against device key `kd`:
equal keys give Today, a delta of exactly `+1` gives Tomorrow, exactly `-1`
gives Yesterday, any other delta is classified by its sign. -/
def classifyDelta (kt kd : Nat) : DayRel :=
  if kt = kd then DayRel.Today
  else if (kt : Int) - (kd : Int) = 1 then DayRel.Tomorrow
  else if (kt : Int) - (kd : Int) = -1 then DayRel.Yesterday
  else if 0 < (kt : Int) - (kd : Int) then DayRel.Tomorrow
  else DayRel.Yesterday

/-- Well-formedness of rendered calendar fields: month and day lie in their
civil-calendar ranges (every value the rendering facility produces
satisfies this). -/
def ValidYMD (f : LocalFields) : Prop :=
  1 ≤ f.month ∧ f.month ≤ 12 ∧ 1 ≤ f.day ∧ f.day ≤ 31

instance (f : LocalFields) : Decidable (ValidYMD f) := by
  unfold ValidYMD; infer_instance

/-! ### Concrete sample environments (used by witness theorems) -/

/-- A concrete rendering environment: device zone `America/Los_Angeles`
(rendered `2024-06-15 16:30:00` local), target `Asia/Tokyo` (rendered
`2024-06-16 08:30:00` local); every other id is unrecognized.  At the
instant `2024-06-15T23:30:00Z` (epoch ms `1718494200000`) these renderings
are the real PDT / JST wall clocks. -/
def sampleEnv : TZEnv where
  localFields := fun z _ =>
    if z = "Asia/Tokyo" then Except.ok ⟨2024, 6, 16, 8, 30, 0⟩
    else if z = "America/Los_Angeles" then Except.ok ⟨2024, 6, 15, 16, 30, 0⟩
    else Except.error ⟨z⟩
  deviceZoneId := "America/Los_Angeles"

/-- A rendering environment for the British-Summer-Time scenario: at the
instant `2024-06-15T09:05:00Z` (epoch ms `1718442300000`) the zone
`Europe/London` renders as `2024-06-15 10:05:00` local (UTC+1). -/
def londonEnv : TZEnv where
  localFields := fun z t =>
    if z = "Europe/London" ∧ t = 1718442300000 then
      Except.ok ⟨2024, 6, 15, 10, 5, 0⟩
    else Except.error ⟨z⟩
  deviceZoneId := "Europe/London"

/-- A concrete catalog environment: no live enumeration facility, a bundled
list of three ids, country metadata for two of them, and string-length
comparison standing in for the locale collation. -/
def catalogEnv : CatalogEnv where
  supportedValuesOf := none
  timeZonesNames := ["Asia/Tokyo", "Europe/London", "America/New_York"]
  tzMeta := [⟨"Asia/Tokyo", "Japan"⟩, ⟨"Europe/London", "United Kingdom"⟩]
  localeCompare := fun a b => (a.length : Int) - (b.length : Int)

/-! ### Digit lemmas -/

theorem digitOfNat_val (n : Nat) : (digitOfNat n).toNat = 48 + n % 10 := by
  unfold digitOfNat
  have h : n % 10 < 10 := Nat.mod_lt _ (by norm_num)
  generalize n % 10 = k at *
  interval_cases k <;> decide

theorem digitOfNat_ne_dash (n : Nat) : (digitOfNat n != '-') = true := by
  rw [bne_iff_ne]
  intro heq
  have := congrArg Char.toNat heq
  rw [digitOfNat_val] at this
  have h : n % 10 < 10 := Nat.mod_lt _ (by norm_num)
  have h45 : ('-').toNat = 45 := by decide
  omega

theorem parseDigitsFrom_append (a : Nat) (l1 l2 : List Char) :
    parseDigitsFrom a (l1 ++ l2) = parseDigitsFrom (parseDigitsFrom a l1) l2 := by
  unfold parseDigitsFrom
  exact List.foldl_append _ _ _ _

theorem parseDigitsFrom_eq : ∀ (l : List Char) (a : Nat),
    parseDigitsFrom a l = a * 10 ^ l.length + parseDigitsFrom 0 l
  | [], a => by simp [parseDigitsFrom]
  | c :: cs, a => by
    have h1 := parseDigitsFrom_eq cs (a * 10 + (c.toNat - 48))
    have h2 := parseDigitsFrom_eq cs (0 * 10 + (c.toNat - 48))
    simp only [parseDigitsFrom, List.foldl_cons, List.length_cons] at *
    rw [h1, h2]
    ring

theorem parse_natDigitsAux : ∀ (fuel n : Nat), n < 10 ^ fuel →
    parseDigits (natDigitsAux fuel n) = n
  | 0, n, h => by
    simp only [pow_zero, Nat.lt_one_iff] at h
    simp [h, natDigitsAux, parseDigits, parseDigitsFrom]
  | fuel + 1, n, h => by
    by_cases h10 : n < 10
    · simp only [natDigitsAux, h10, if_true, parseDigits, parseDigitsFrom,
        List.foldl_cons, List.foldl_nil]
      rw [digitOfNat_val]
      omega
    · have hn : n / 10 < 10 ^ fuel := by
        have hp : 10 ^ (fuel + 1) = 10 ^ fuel * 10 := pow_succ 10 fuel
        omega
      have ih := parse_natDigitsAux fuel (n / 10) hn
      simp only [natDigitsAux, h10, if_false, parseDigits] at *
      rw [parseDigitsFrom_append, ih]
      simp only [parseDigitsFrom, List.foldl_cons, List.foldl_nil]
      rw [digitOfNat_val]
      omega

theorem parse_natDigits (n : Nat) : parseDigits (natDigits n) = n := by
  apply parse_natDigitsAux
  calc n < 10 ^ n := Nat.lt_pow_self (by norm_num) n
    _ ≤ 10 ^ (n + 1) := Nat.pow_le_pow_right (by norm_num) (Nat.le_succ n)

theorem mem_natDigitsAux : ∀ (fuel n : Nat) (c : Char),
    c ∈ natDigitsAux fuel n → ∃ k, c = digitOfNat k
  | 0, _, _, h => by simp [natDigitsAux] at h
  | fuel + 1, n, c, h => by
    by_cases h10 : n < 10
    · simp only [natDigitsAux, h10, if_true, List.mem_singleton] at h
      exact ⟨n, h⟩
    · simp only [natDigitsAux, h10, if_false, List.mem_append,
        List.mem_singleton] at h
      rcases h with h | h
      · exact mem_natDigitsAux fuel (n / 10) c h
      · exact ⟨n % 10, h⟩

theorem filter_natDigits (n : Nat) :
    (natDigits n).filter (fun c => c != '-') = natDigits n := by
  apply List.filter_eq_self.mpr
  intro c hc
  obtain ⟨k, rfl⟩ := mem_natDigitsAux _ _ _ hc
  exact digitOfNat_ne_dash k

theorem pad2_spec : ∀ n, n < 100 → (pad2 n).length = 2 ∧
    parseDigits (pad2 n) = n ∧
    (pad2 n).filter (fun c => c != '-') = pad2 n := by decide

/-! ### Day-key lemmas -/

theorem toNum_dayKeyStr (f : LocalFields) (hm : f.month < 100) (hd : f.day < 100) :
    toNum (dayKeyStr f) = keyNum f := by
  obtain ⟨lm, pm, fm⟩ := pad2_spec f.month hm
  obtain ⟨ld, pd, fdd⟩ := pad2_spec f.day hd
  have hdata : (dayKeyStr f).data =
      natDigits f.year ++ '-' :: (pad2 f.month ++ '-' :: pad2 f.day) := rfl
  unfold toNum
  rw [hdata]
  rw [List.filter_append, List.filter_cons, List.filter_append, List.filter_cons]
  have hdash : (('-' : Char) != '-') = false := by decide
  rw [hdash]
  simp only [Bool.false_eq_true, if_false]
  rw [filter_natDigits, fm, fdd]
  unfold parseDigits
  rw [parseDigitsFrom_append, parseDigitsFrom_append]
  have h1 : parseDigitsFrom 0 (natDigits f.year) = f.year := parse_natDigits f.year
  rw [h1]
  rw [parseDigitsFrom_eq (pad2 f.day), parseDigitsFrom_eq (pad2 f.month)]
  rw [lm, ld]
  unfold parseDigits at pm pd
  rw [pm, pd]
  unfold keyNum
  ring

theorem keyNum_inj {f g : LocalFields} (hf : ValidYMD f) (hg : ValidYMD g)
    (h : keyNum f = keyNum g) :
    f.year = g.year ∧ f.month = g.month ∧ f.day = g.day := by
  unfold keyNum ValidYMD at *
  omega

theorem dayKeyStr_congr {f g : LocalFields} (hy : f.year = g.year)
    (hm : f.month = g.month) (hd : f.day = g.day) : dayKeyStr f = dayKeyStr g := by
  unfold dayKeyStr
  rw [hy, hm, hd]

/-! ### Claim theorems -/

/-- Claim C1: for every target zone and instant whose renderings succeed
with well-formed calendar fields, `dayRelative` computes the zone-local
calendar dates of the device zone and the target zone as
decimal-comparable integer keys (`2024-06-15` becomes `20240615`) and
classifies: equal keys give Today, a delta of exactly `+1` gives Tomorrow,
exactly `-1` gives Yesterday, and any other delta by its raw sign. -/
theorem dayRelative_decimal_key_classification
    (env : TZEnv) (zone : String) (t : Int) (fd ft : LocalFields)
    (hd : env.localFields (deviceZone env) t = Except.ok fd)
    (ht : env.localFields zone t = Except.ok ft)
    (hvd : ValidYMD fd) (hvt : ValidYMD ft) :
    dayRelative env zone t = Except.ok (classifyDelta (keyNum ft) (keyNum fd)) := by
  have hmd : fd.month < 100 := by unfold ValidYMD at hvd; omega
  have hdd2 : fd.day < 100 := by unfold ValidYMD at hvd; omega
  have hmt : ft.month < 100 := by unfold ValidYMD at hvt; omega
  have hdt : ft.day < 100 := by unfold ValidYMD at hvt; omega
  have keyd := toNum_dayKeyStr fd hmd hdd2
  have keyt := toNum_dayKeyStr ft hmt hdt
  have hiff : (dayKeyStr ft = dayKeyStr fd) ↔ keyNum ft = keyNum fd := by
    constructor
    · intro hEq
      rw [← keyt, ← keyd, hEq]
    · intro hk
      obtain ⟨h1, h2, h3⟩ := keyNum_inj hvt hvd hk
      exact dayKeyStr_congr h1 h2 h3
  unfold dayRelative dayKey classifyDelta
  rw [hd, ht]
  simp only [keyd, keyt, hiff]
  split_ifs <;> rfl

/-- Witness for C1, matching the spec scenario: device renders the
calendar date 2024-06-15, the target zone 2024-06-16, so the key delta is
`+1` and `dayRelative` answers Tomorrow. -/
theorem dayRelative_decimal_key_classification_witness :
    dayRelative sampleEnv "Asia/Tokyo" 1718494200000 = Except.ok DayRel.Tomorrow :=
  (dayRelative_decimal_key_classification sampleEnv "Asia/Tokyo" 1718494200000
    ⟨2024, 6, 15, 16, 30, 0⟩ ⟨2024, 6, 16, 8, 30, 0⟩ rfl rfl
    (by decide) (by decide)).trans (by decide)

/-- Claim C2: for every recognized zone and instant, `offsetMinutes` equals
the stated computation: render the instant into zone-local calendar
fields, reinterpret those field values as a UTC instant
(`utcFromFields`, the proleptic-Gregorian `Date.UTC` reinterpretation),
and take the signed difference rounded to the nearest minute — the
returned value minimizes the distance of any whole-minute count to the
signed millisecond difference.  The two closed conjuncts check that the
reinterpretation really is the civil-calendar epoch computation. -/
theorem offsetMinutes_reinterpret_round_nearest
    (env : TZEnv) (zone : String) (t : Int) (f : LocalFields)
    (h : env.localFields zone t = Except.ok f) :
    offsetMinutes env zone t = Except.ok (mathRoundDiv (utcFromFields f - t) 60000) ∧
    (∀ x : Int,
      (60000 * mathRoundDiv (utcFromFields f - t) 60000 - (utcFromFields f - t)).natAbs ≤
        (60000 * x - (utcFromFields f - t)).natAbs) ∧
    utcFromFields ⟨1970, 1, 1, 0, 0, 0⟩ = 0 ∧
    utcFromFields ⟨2024, 6, 15, 9, 5, 0⟩ = 1718442300000 := by
  refine ⟨?_, ?_, by decide, by decide⟩
  · unfold offsetMinutes
    rw [h]
  · intro x
    have hm : mathRoundDiv (utcFromFields f - t) 60000 =
        (2 * (utcFromFields f - t) + 60000) / 120000 := by
      norm_num [mathRoundDiv]
    rw [hm]
    omega

/-- Witness for C2: in the sample environment the Tokyo rendering at
`2024-06-15T23:30:00Z` gives a reinterpreted difference of `32400000` ms,
so `offsetMinutes` returns `540`. -/
theorem offsetMinutes_reinterpret_round_nearest_witness :
    offsetMinutes sampleEnv "Asia/Tokyo" 1718494200000 = Except.ok 540 :=
  ((offsetMinutes_reinterpret_round_nearest sampleEnv "Asia/Tokyo" 1718494200000
    ⟨2024, 6, 16, 8, 30, 0⟩ rfl).1).trans (by decide)

/-- Claim C9: whenever a zone is recognized and its rendered fields place
the zone within the plausible real-world offset band (reinterpreted
difference between −720 and +840 minutes in milliseconds), the
`offsetMinutes` result is an integer in `[-720, 840]`; and the function is
stable: any environment and zone producing the same rendering at the same
instant produce the same result. -/
theorem offsetMinutes_range_and_stable
    (env : TZEnv) (zone : String) (t : Int) (f : LocalFields)
    (h : env.localFields zone t = Except.ok f)
    (hlo : -43200000 ≤ utcFromFields f - t)
    (hhi : utcFromFields f - t ≤ 50400000) :
    ∃ r, offsetMinutes env zone t = Except.ok r ∧ -720 ≤ r ∧ r ≤ 840 ∧
      ∀ (env2 : TZEnv) (zone2 : String),
        env2.localFields zone2 t = env.localFields zone t →
        offsetMinutes env2 zone2 t = offsetMinutes env zone t := by
  refine ⟨mathRoundDiv (utcFromFields f - t) 60000, ?_, ?_, ?_, ?_⟩
  · unfold offsetMinutes
    rw [h]
  · have hm : mathRoundDiv (utcFromFields f - t) 60000 =
        (2 * (utcFromFields f - t) + 60000) / 120000 := by
      norm_num [mathRoundDiv]
    rw [hm]
    omega
  · have hm : mathRoundDiv (utcFromFields f - t) 60000 =
        (2 * (utcFromFields f - t) + 60000) / 120000 := by
      norm_num [mathRoundDiv]
    rw [hm]
    omega
  · intro env2 zone2 heq
    unfold offsetMinutes
    rw [heq, h]

/-- Witness for C9: the sample Tokyo rendering is `+540` minutes, inside
the plausible band, and the bound and stability hold there. -/
theorem offsetMinutes_range_and_stable_witness :
    ∃ r, offsetMinutes sampleEnv "Asia/Tokyo" 1718494200000 = Except.ok r ∧
      -720 ≤ r ∧ r ≤ 840 ∧
      ∀ (env2 : TZEnv) (zone2 : String),
        env2.localFields zone2 1718494200000 =
          sampleEnv.localFields "Asia/Tokyo" 1718494200000 →
        offsetMinutes env2 zone2 1718494200000 =
          offsetMinutes sampleEnv "Asia/Tokyo" 1718494200000 :=
  offsetMinutes_range_and_stable sampleEnv "Asia/Tokyo" 1718494200000
    ⟨2024, 6, 16, 8, 30, 0⟩ rfl (by decide) (by decide)

/-- Claim C3: `diffLabel` renders `d = offsetMinutes(target) −
offsetMinutes(device)` with a leading `'+'` for non-negative `d` and a
minus glyph distinct from the hyphen for negative `d`; `|d|` is decomposed
into whole hours and remainder minutes, the minute component is shown
exactly when it is non-zero, and `d = 0` renders as `"+0h"`. -/
theorem diffLabel_sign_hours_minutes
    (env : TZEnv) (zone : String) (t : Int) (ot od : Int)
    (ht : offsetMinutes env zone t = Except.ok ot)
    (hd : offsetMinutes env (deviceZone env) t = Except.ok od) :
    ∃ s, diffLabel env zone t = Except.ok s ∧
      (ot - od).natAbs = 60 * ((ot - od).natAbs / 60) + (ot - od).natAbs % 60 ∧
      (ot - od).natAbs % 60 < 60 ∧
      (0 ≤ ot - od → (ot - od).natAbs % 60 = 0 →
        s = "+" ++ natStr ((ot - od).natAbs / 60) ++ "h") ∧
      (0 ≤ ot - od → (ot - od).natAbs % 60 ≠ 0 →
        s = "+" ++ natStr ((ot - od).natAbs / 60) ++ "h " ++
          natStr ((ot - od).natAbs % 60) ++ "m") ∧
      (ot - od < 0 → (ot - od).natAbs % 60 = 0 →
        s = "−" ++ natStr ((ot - od).natAbs / 60) ++ "h") ∧
      (ot - od < 0 → (ot - od).natAbs % 60 ≠ 0 →
        s = "−" ++ natStr ((ot - od).natAbs / 60) ++ "h " ++
          natStr ((ot - od).natAbs % 60) ++ "m") ∧
      ("−" ≠ "-") ∧
      (ot - od = 0 → s = "+0h") := by
  have hdecomp : (ot - od).natAbs = 60 * ((ot - od).natAbs / 60) +
      (ot - od).natAbs % 60 := (Nat.div_add_mod _ 60).symm
  have hlt : (ot - od).natAbs % 60 < 60 := Nat.mod_lt _ (by norm_num)
  have hglyph : ("−" : String) ≠ "-" := by decide
  by_cases hm : (ot - od).natAbs % 60 = 0 <;> by_cases hs : 0 ≤ ot - od
  · have heq : diffLabel env zone t =
        Except.ok ("+" ++ natStr ((ot - od).natAbs / 60) ++ "h") := by
      unfold diffLabel
      rw [ht, hd]
      simp [hm, hs]
    refine ⟨_, heq, hdecomp, hlt, ?_, ?_, ?_, ?_, hglyph, ?_⟩
    · intro _ _; rfl
    · intro _ hm2; exact absurd hm hm2
    · intro hlt2 _; exact absurd hs (by omega)
    · intro hlt2 _; exact absurd hs (by omega)
    · intro h0
      have hz : (ot - od).natAbs = 0 := by omega
      simp only [hz]
      decide
  · have heq : diffLabel env zone t =
        Except.ok ("−" ++ natStr ((ot - od).natAbs / 60) ++ "h") := by
      unfold diffLabel
      rw [ht, hd]
      simp [hm, hs]
    refine ⟨_, heq, hdecomp, hlt, ?_, ?_, ?_, ?_, hglyph, ?_⟩
    · intro hs2 _; exact absurd hs2 hs
    · intro hs2 _; exact absurd hs2 hs
    · intro _ _; rfl
    · intro _ hm2; exact absurd hm hm2
    · intro h0; exact absurd (by omega : 0 ≤ ot - od) hs
  · have heq : diffLabel env zone t =
        Except.ok ("+" ++ natStr ((ot - od).natAbs / 60) ++ "h " ++
          natStr ((ot - od).natAbs % 60) ++ "m") := by
      unfold diffLabel
      rw [ht, hd]
      simp [hm, hs]
    refine ⟨_, heq, hdecomp, hlt, ?_, ?_, ?_, ?_, hglyph, ?_⟩
    · intro _ hm2; exact absurd hm2 (by simp [hm])
    · intro _ _; rfl
    · intro hlt2 _; exact absurd hs (by omega)
    · intro hlt2 _; exact absurd hs (by omega)
    · intro h0; exact absurd (show (ot - od).natAbs % 60 = 0 by omega) hm
  · have heq : diffLabel env zone t =
        Except.ok ("−" ++ natStr ((ot - od).natAbs / 60) ++ "h " ++
          natStr ((ot - od).natAbs % 60) ++ "m") := by
      unfold diffLabel
      rw [ht, hd]
      simp [hm, hs]
    refine ⟨_, heq, hdecomp, hlt, ?_, ?_, ?_, ?_, hglyph, ?_⟩
    · intro hs2 _; exact absurd hs2 hs
    · intro hs2 _; exact absurd hs2 hs
    · intro _ hm2; exact absurd hm2 (by simp [hm])
    · intro _ _; rfl
    · intro h0; exact absurd (by omega : 0 ≤ ot - od) hs

/-- Witness for C3: in the sample environment the target offset is `+540`,
the device offset `−420`, the difference `+960` minutes, i.e. `16` whole
hours and `0` remainder minutes, rendered `"+16h"`. -/
theorem diffLabel_sign_hours_minutes_witness :
    ∃ s, diffLabel sampleEnv "Asia/Tokyo" 1718494200000 = Except.ok s ∧
      ((540 : Int) - -420).natAbs = 60 * (((540 : Int) - -420).natAbs / 60) +
        ((540 : Int) - -420).natAbs % 60 ∧
      ((540 : Int) - -420).natAbs % 60 < 60 ∧
      (0 ≤ (540 : Int) - -420 → ((540 : Int) - -420).natAbs % 60 = 0 →
        s = "+" ++ natStr (((540 : Int) - -420).natAbs / 60) ++ "h") ∧
      (0 ≤ (540 : Int) - -420 → ((540 : Int) - -420).natAbs % 60 ≠ 0 →
        s = "+" ++ natStr (((540 : Int) - -420).natAbs / 60) ++ "h " ++
          natStr (((540 : Int) - -420).natAbs % 60) ++ "m") ∧
      ((540 : Int) - -420 < 0 → ((540 : Int) - -420).natAbs % 60 = 0 →
        s = "−" ++ natStr (((540 : Int) - -420).natAbs / 60) ++ "h") ∧
      ((540 : Int) - -420 < 0 → ((540 : Int) - -420).natAbs % 60 ≠ 0 →
        s = "−" ++ natStr (((540 : Int) - -420).natAbs / 60) ++ "h " ++
          natStr (((540 : Int) - -420).natAbs % 60) ++ "m") ∧
      ("−" ≠ "-") ∧
      ((540 : Int) - -420 = 0 → s = "+0h") :=
  diffLabel_sign_hours_minutes sampleEnv "Asia/Tokyo" 1718494200000 540 (-420)
    (by decide) (by decide)

/-- Claim C8: whenever the device zone itself is recognized, the offset of
the device zone relative to itself is zero and `diffLabel` of the device
zone renders the zero form `"+0h"`, at every instant. -/
theorem diffLabel_device_zone_zero
    (env : TZEnv) (t : Int) (od : Int)
    (hd : offsetMinutes env (deviceZone env) t = Except.ok od) :
    diffLabel env (deviceZone env) t = Except.ok "+0h" := by
  unfold diffLabel
  rw [hd]
  simp only [sub_self, Int.natAbs_zero]
  norm_num
  decide

/-- Witness for C8: in the sample environment the device zone resolves and
its self-relative label is `"+0h"`. -/
theorem diffLabel_device_zone_zero_witness :
    diffLabel sampleEnv (deviceZone sampleEnv) 1718494200000 = Except.ok "+0h" :=
  diffLabel_device_zone_zero sampleEnv 1718494200000 (-420) (by decide)

/-- Claim C4: the formatting functions catch nothing: when the rendering
step rejects the target zone (and the device zone itself renders), the
very same `UnknownZoneError` value comes back unchanged from `diffLabel`,
`dayRelative` and `timeHHmm`, with no fallback substituted. -/
theorem formatting_propagates_unknown_zone
    (env : TZEnv) (zone : String) (t : Int) (e : UnknownZoneError)
    (fd : LocalFields)
    (ht : env.localFields zone t = Except.error e)
    (hd : env.localFields (deviceZone env) t = Except.ok fd) :
    diffLabel env zone t = Except.error e ∧
    dayRelative env zone t = Except.error e ∧
    timeHHmm env zone t = Except.error e := by
  refine ⟨?_, ?_, ?_⟩
  · unfold diffLabel offsetMinutes
    rw [ht]
  · unfold dayRelative dayKey
    rw [ht, hd]
  · unfold timeHHmm
    rw [ht]

/-- Witness for C4: in the sample environment the id `"Not/A_Zone"` is
unrecognized; all three formatters return exactly its error. -/
theorem formatting_propagates_unknown_zone_witness :
    diffLabel sampleEnv "Not/A_Zone" 1718494200000 =
      Except.error ⟨"Not/A_Zone"⟩ ∧
    dayRelative sampleEnv "Not/A_Zone" 1718494200000 =
      Except.error ⟨"Not/A_Zone"⟩ ∧
    timeHHmm sampleEnv "Not/A_Zone" 1718494200000 =
      Except.error ⟨"Not/A_Zone"⟩ :=
  formatting_propagates_unknown_zone sampleEnv "Not/A_Zone" 1718494200000
    ⟨"Not/A_Zone"⟩ ⟨2024, 6, 15, 16, 30, 0⟩ (by decide) (by decide)

/-- Claim C7: `timeHHmm` renders the target zone's wall clock as the
two-character zero-padded hour, a fixed colon, and the two-character
zero-padded minute — no seconds — and concretely, for a `Europe/London`
rendering of the instant `2024-06-15T09:05:00Z` during British Summer
Time the result is `"10:05"`. -/
theorem timeHHmm_padded_colon
    (env : TZEnv) (zone : String) (t : Int) (f : LocalFields)
    (h : env.localFields zone t = Except.ok f)
    (hh : f.hour ≤ 23) (hm : f.minute ≤ 59) :
    (∃ s, timeHHmm env zone t = Except.ok s ∧
      s.data = pad2 f.hour ++ ':' :: pad2 f.minute ∧
      (pad2 f.hour).length = 2 ∧ (pad2 f.minute).length = 2 ∧
      parseDigits (pad2 f.hour) = f.hour ∧
      parseDigits (pad2 f.minute) = f.minute) ∧
    timeHHmm londonEnv "Europe/London" 1718442300000 = Except.ok "10:05" := by
  obtain ⟨lh, ph, -⟩ := pad2_spec f.hour (by omega)
  obtain ⟨lm, pm, -⟩ := pad2_spec f.minute (by omega)
  refine ⟨⟨_, ?_, rfl, lh, lm, ph, pm⟩, by decide⟩
  unfold timeHHmm
  rw [h]

/-- Witness for C7, instantiating the London scenario fields. -/
theorem timeHHmm_padded_colon_witness :
    (∃ s, timeHHmm londonEnv "Europe/London" 1718442300000 = Except.ok s ∧
      s.data = pad2 10 ++ ':' :: pad2 5 ∧
      (pad2 10).length = 2 ∧ (pad2 5).length = 2 ∧
      parseDigits (pad2 10) = 10 ∧ parseDigits (pad2 5) = 5) ∧
    timeHHmm londonEnv "Europe/London" 1718442300000 = Except.ok "10:05" :=
  timeHHmm_padded_colon londonEnv "Europe/London" 1718442300000
    ⟨2024, 6, 15, 10, 5, 0⟩ (by decide) (by decide) (by decide)

/-! ### Split lemmas for `cityFromZoneId` -/

theorem splitChar_ne_nil (sep : Char) : ∀ l, splitChar sep l ≠ []
  | [] => by simp [splitChar]
  | c :: cs => by
    simp only [splitChar]
    split
    · simp
    · split <;> simp

theorem splitChar_not_mem (sep : Char) : ∀ l, sep ∉ l → splitChar sep l = [l]
  | [], _ => rfl
  | c :: cs, h => by
    have hc : c ≠ sep := fun he => h (he ▸ List.mem_cons_self c cs)
    have hcs : sep ∉ cs := fun hm => h (List.mem_cons_of_mem c hm)
    simp only [splitChar, splitChar_not_mem sep cs hcs]
    rw [if_neg hc]

theorem splitChar_mem_len (sep : Char) : ∀ l, sep ∈ l → 2 ≤ (splitChar sep l).length
  | c :: cs, h => by
    simp only [splitChar]
    cases hsc : splitChar sep cs with
    | nil => exact absurd hsc (splitChar_ne_nil sep cs)
    | cons g gs =>
      by_cases hc : c = sep
      · simp [hc]
      · have hcs : sep ∈ cs := by
          rcases List.mem_cons.mp h with h1 | h1
          · exact absurd h1.symm hc
          · exact h1
        have hlen := splitChar_mem_len sep cs hcs
        rw [hsc] at hlen
        simp only [if_neg hc, List.length_cons] at *
        omega

theorem getLastD_default_irrel {α : Type} (l : List α) (h : l ≠ []) (d1 d2 : α) :
    l.getLastD d1 = l.getLastD d2 := by
  cases l with
  | nil => exact absurd rfl h
  | cons a as => rw [List.getLastD_cons, List.getLastD_cons]

theorem splitChar_getLastD : ∀ (l d0 : List Char),
    (splitChar '/' l).getLastD d0 = afterLastSlash l
  | [], d0 => rfl
  | c :: cs, d0 => by
    cases hsc : splitChar '/' cs with
    | nil => exact absurd hsc (splitChar_ne_nil '/' cs)
    | cons g gs =>
      by_cases hmem : '/' ∈ cs
      · by_cases hc : c = '/'
        · have ih := splitChar_getLastD cs g
          rw [hsc] at ih
          simp only [splitChar, hsc, if_pos hc, afterLastSlash, if_pos hmem]
          rw [List.getLastD_cons]
          exact (getLastD_default_irrel (g :: gs) (List.cons_ne_nil g gs) [] g).trans ih
        · have hlen := splitChar_mem_len '/' cs hmem
          rw [hsc] at hlen
          have hgs : gs ≠ [] := by
            cases gs with
            | nil => simp at hlen
            | cons x xs => simp
          have ih := splitChar_getLastD cs g
          rw [hsc, List.getLastD_cons] at ih
          simp only [splitChar, hsc, if_neg hc, afterLastSlash, if_pos hmem]
          rw [List.getLastD_cons, ← ih]
          exact getLastD_default_irrel gs hgs _ _
      · have hcs : splitChar '/' cs = [cs] := splitChar_not_mem '/' cs hmem
        rw [hcs] at hsc
        injection hsc with hg hgs
        subst hg
        subst hgs
        by_cases hc : c = '/'
        · simp only [splitChar, hcs, if_pos hc, afterLastSlash, if_neg hmem, hc,
            if_pos rfl]
          rfl
        · simp only [splitChar, hcs, if_neg hc, afterLastSlash, if_neg hmem,
            if_neg hc]
          rfl

/-- Claim C6: `cityFromZoneId` is a pure total function: for every string
it returns the substring after the last `'/'` (the whole id when there is
no `'/'`) with every underscore replaced by a space, and in particular
maps `"America/Argentina/Buenos_Aires"` to `"Buenos Aires"` and `"UTC"`
to `"UTC"`. -/
theorem cityFromZoneId_last_segment :
    (∀ id : String, cityFromZoneId id =
      String.mk ((afterLastSlash id.data).map underscoreToSpace)) ∧
    cityFromZoneId "America/Argentina/Buenos_Aires" = "Buenos Aires" ∧
    cityFromZoneId "UTC" = "UTC" := by
  refine ⟨?_, by decide, by decide⟩
  intro id
  unfold cityFromZoneId
  rw [splitChar_getLastD]
  rfl

/-- Claim C5: `getAllZones` resolves its id list in the fixed two-tier
order — the runtime enumeration result when the facility exists and
returns, otherwise (absent facility or a throw) the bundled static list —
never surfacing the enumeration failure (the result is a plain permuted
item list either way), and the returned list is sorted ascending by city
under the locale comparison, assuming that comparison is transitive and
total as real collations are. -/
theorem getAllZones_two_tier_sorted
    (env : CatalogEnv)
    (htrans : ∀ a b c : String, env.localeCompare a b ≤ 0 →
      env.localeCompare b c ≤ 0 → env.localeCompare a c ≤ 0)
    (htotal : ∀ a b : String,
      env.localeCompare a b ≤ 0 ∨ env.localeCompare b a ≤ 0) :
    (∀ ids, env.supportedValuesOf = some (Except.ok ids) →
      (getAllZones env).Perm (ids.map (mkItem env.tzMeta))) ∧
    ((env.supportedValuesOf = none ∨
        env.supportedValuesOf = some (Except.error ())) →
      (getAllZones env).Perm (env.timeZonesNames.map (mkItem env.tzMeta))) ∧
    (getAllZones env).Pairwise
      (fun a b => env.localeCompare a.city b.city ≤ 0) := by
  refine ⟨?_, ?_, ?_⟩
  · intro ids hsvo
    unfold getAllZones
    rw [hsvo]
    exact List.mergeSort_perm _ _
  · intro hcase
    unfold getAllZones
    rcases hcase with h | h <;> rw [h] <;> exact List.mergeSort_perm _ _
  · refine List.Pairwise.imp (fun h => of_decide_eq_true h) ?_
    unfold getAllZones
    apply List.sorted_mergeSort
    · intro a b c h1 h2
      exact decide_eq_true
        (htrans a.city b.city c.city (of_decide_eq_true h1) (of_decide_eq_true h2))
    · intro a b
      rw [Bool.or_eq_true]
      rcases htotal a.city b.city with h | h
      · exact Or.inl (decide_eq_true h)
      · exact Or.inr (decide_eq_true h)

/-- Witness for C5: the concrete catalog environment has no enumeration
facility; its result is the permuted enrichment of the bundled list and
is sorted by the (length-based) comparison. -/
theorem getAllZones_two_tier_sorted_witness :
    (∀ ids, catalogEnv.supportedValuesOf = some (Except.ok ids) →
      (getAllZones catalogEnv).Perm (ids.map (mkItem catalogEnv.tzMeta))) ∧
    ((catalogEnv.supportedValuesOf = none ∨
        catalogEnv.supportedValuesOf = some (Except.error ())) →
      (getAllZones catalogEnv).Perm
        (catalogEnv.timeZonesNames.map (mkItem catalogEnv.tzMeta))) ∧
    (getAllZones catalogEnv).Pairwise
      (fun a b => catalogEnv.localeCompare a.city b.city ≤ 0) :=
  getAllZones_two_tier_sorted catalogEnv
    (fun a b c h1 h2 => by
      simp only [catalogEnv] at *
      omega)
    (fun a b => by
      simp only [catalogEnv]
      omega)

/-- Claim C10: every entry of `getAllZones` is internally consistent: its
city is `cityFromZoneId` of its id, its country is exactly the bundled
metadata lookup for its id, and the country is present precisely when the
metadata table has an entry keyed by that id. -/
theorem getAllZones_items_consistent
    (env : CatalogEnv) (it : TimeZoneItem) (h : it ∈ getAllZones env) :
    it.city = cityFromZoneId it.id ∧
    it.country = (metaLookup env.tzMeta it.id).map TZMeta.countryName ∧
    (it.country.isSome ↔ env.tzMeta.any (fun m => m.name == it.id)) := by
  simp only [getAllZones, List.mem_mergeSort] at h
  obtain ⟨id, hid, rfl⟩ := List.mem_map.mp h
  refine ⟨rfl, rfl, ?_⟩
  simp only [mkItem, metaLookup, Option.isSome_map', List.find?_isSome,
    List.any_eq_true, List.mem_reverse]

/-- Witness for C10: the catalog entry built for `"Asia/Tokyo"` carries
city `"Tokyo"` and country `"Japan"`, consistent with its id. -/
theorem getAllZones_items_consistent_witness :
    (⟨"Asia/Tokyo", "Tokyo", some "Japan"⟩ : TimeZoneItem).city =
      cityFromZoneId (⟨"Asia/Tokyo", "Tokyo", some "Japan"⟩ : TimeZoneItem).id ∧
    (⟨"Asia/Tokyo", "Tokyo", some "Japan"⟩ : TimeZoneItem).country =
      (metaLookup catalogEnv.tzMeta
        (⟨"Asia/Tokyo", "Tokyo", some "Japan"⟩ : TimeZoneItem).id).map
        TZMeta.countryName ∧
    ((⟨"Asia/Tokyo", "Tokyo", some "Japan"⟩ : TimeZoneItem).country.isSome ↔
      catalogEnv.tzMeta.any (fun m =>
        m.name == (⟨"Asia/Tokyo", "Tokyo", some "Japan"⟩ : TimeZoneItem).id)) :=
  getAllZones_items_consistent catalogEnv ⟨"Asia/Tokyo", "Tokyo", some "Japan"⟩
    (by simp only [getAllZones, List.mem_mergeSort]; decide)

end TZ
